import Mathlib

/-
Verification of the fsgrid library (cschpc/fsgrid), a distributed,
non-load-balancing 3D cartesian grid for finite-difference field solvers.

This file gives a shallow embedding of the library's pure core — the
BitMask32 helper, the FsStencil index calculation, the coordinate algebra
of FsGrid (local/global coordinates, linear storage indices, the
task-ownership rule), the topology tables (neighbour index/rank maps) and
the gating conditions of the halo exchange — and proves the corresponding
properties.

Machine integers are modelled as ℕ or ℤ: the code paths under study keep
all values well inside the 32/64-bit ranges, except in BitMask32 where the
32-bit wrap-around of the shift amount is part of the contract and is
modelled explicitly (the source masks the index with `& 31`).
-/

namespace FsGrid

/-- Signed integer triple, used for cell coordinates, sizes and offsets
(`std::array of int32_t, 3` in the source). -/
structure Vec3 where
  x : ℤ
  y : ℤ
  z : ℤ
deriving DecidableEq, Repr

/-- Natural-number triple, used for the task-grid arithmetic where every
quantity in the source is a non-negative machine integer. -/
structure Nat3 where
  x : ℕ
  y : ℕ
  z : ℕ
deriving DecidableEq, Repr

/-- BitMask32 indexing, from `fsgrid::BitMask32::operator[]`
(src/unnamed/part_004, lines 31-37).  `bits` is the `uint32_t` value given
to the constructor.  The source computes
`mul = i < 32; i &= 31; return mul * ((bits & (1u << i)) >> i)`. -/
def BitMask32.get (bits i : ℕ) : ℕ :=
  (if i < 32 then 1 else 0) * ((bits &&& (1 <<< (i &&& 31))) >>> (i &&& 31))

/-- StencilConstants, from src/unnamed/part_003 lines 31-42 (also
src/unnamed/part_004 lines 43-54): per-grid constants of the stencil
accessor.  `shift` and `fallbackToCenter` are the raw `uint32_t` values of
the two BitMask32 members. -/
structure StencilConstants where
  limits : Vec3
  multipliers : Vec3
  offset : ℤ
  shift : ℕ
  fallbackToCenter : ℕ
deriving DecidableEq, Repr

namespace FsStencil

/-- Embedding of `FsStencil::localityMultipliers` (src/unnamed/part_003, lines 54-60):
per-axis sign triple, `(c >= limit) - (c < 0)`. -/
def localityMultipliers (c : StencilConstants) (v : Vec3) : Vec3 :=
  ⟨(if c.limits.x ≤ v.x then 1 else 0) - (if v.x < 0 then 1 else 0),
   (if c.limits.y ≤ v.y then 1 else 0) - (if v.y < 0 then 1 else 0),
   (if c.limits.z ≤ v.z then 1 else 0) - (if v.z < 0 then 1 else 0)⟩

/-- Embedding of `FsStencil::neighbourIndex` (src/unnamed/part_003, lines 62-64):
linear encoding `13 + 9x + 3y + z` of the locality triple, cast to
`uint32_t` (the triple is always in {-1,0,1}³ so the value is in [0,26]). -/
def neighbourIndex (v : Vec3) : ℕ :=
  (13 + v.x * 9 + v.y * 3 + v.z).toNat

/-- Embedding of `FsStencil::shiftOffsets` (src/unnamed/part_003, lines 66-72):
periodic wrap offset, `-locality * limits` per axis. -/
def shiftOffsets (c : StencilConstants) (v : Vec3) : Vec3 :=
  ⟨-v.x * c.limits.x, -v.y * c.limits.y, -v.z * c.limits.z⟩

/-- Embedding of `FsStencil::applyMultipliersAndOffset` (src/unnamed/part_003, lines
74-77): dot product with the multipliers plus the offset. -/
def applyMultipliersAndOffset (c : StencilConstants) (v : Vec3) : ℤ :=
  c.offset + c.multipliers.x * v.x + c.multipliers.y * v.y + c.multipliers.z * v.z

/-- Embedding of `FsStencil::calculateIndex` (src/unnamed/part_003, lines 79-94; the
same algorithm appears in src/unnamed/part_004, lines 165-171 with the
fallback applied in `FsStencil::fallback`, lines 246-255).  `centerCell`
is the stencil's centre `(i, j, k)` and `cellIndex` the queried cell. -/
def calculateIndex (c : StencilConstants) (centerCell cellIndex : Vec3) : ℤ :=
  let locality := localityMultipliers c cellIndex
  let ni := neighbourIndex locality
  let fallback := BitMask32.get c.fallbackToCenter ni
  let valid := fallback ^^^ 1
  let addOffset := BitMask32.get c.shift ni
  let offsets := shiftOffsets c locality
  applyMultipliersAndOffset c
    ⟨(valid : ℤ) * (cellIndex.x + (addOffset : ℤ) * offsets.x) + (fallback : ℤ) * centerCell.x,
     (valid : ℤ) * (cellIndex.y + (addOffset : ℤ) * offsets.y) + (fallback : ℤ) * centerCell.y,
     (valid : ℤ) * (cellIndex.z + (addOffset : ℤ) * offsets.z) + (fallback : ℤ) * centerCell.z⟩

end FsStencil

/-- Per-axis storage size, from the FsGrid constructor (src/src/grid.hpp,
lines 304-315): a collapsed dimension (global size at most 1) is one cell
thick, any other is the local size plus twice the stencil width. -/
def storageSizeOfAxis (g l H : ℤ) : ℤ :=
  if g ≤ 1 then 1 else l + 2 * H

/-- The `storageSize` member computed by the constructor, per axis from
`globalSize` `G`, `localSize` `L` and the stencil width `H`. -/
def storageSize (G L : Vec3) (H : ℤ) : Vec3 :=
  ⟨storageSizeOfAxis G.x L.x H, storageSizeOfAxis G.y L.y H, storageSizeOfAxis G.z L.z H⟩

/-- Length of the cell buffer: the constructor resizes `data` to
`totalStorageSize`, the product of the per-axis storage sizes
(src/src/grid.hpp, lines 304-316). -/
def totalStorageSize (G L : Vec3) (H : ℤ) : ℤ :=
  (storageSize G L H).x * (storageSize G L H).y * (storageSize G L H).z

/-- Embedding of `FsGrid::LocalIDForCoords` (src/src/grid.hpp, lines 532-545; the same
function appears in src/unnamed/part_004, lines 752-765): linear storage
index of local cell coordinates, with collapsed dimensions contributing
nothing. -/
def LocalIDForCoords (G L : Vec3) (H : ℤ) (x y z : ℤ) : ℤ :=
  (if 1 < G.z then (storageSize G L H).x * (storageSize G L H).y * (H + z) else 0) +
    (if 1 < G.y then (storageSize G L H).x * (H + y) else 0) +
    (if 1 < G.x then H + x else 0)

/-- Embedding of `FsGrid::getGlobalIndices` (src/src/grid.hpp, lines 612-619): local
cell coordinates to global ones by adding `localStart`. -/
def getGlobalIndices (localStart : Vec3) (x y z : ℤ) : Vec3 :=
  ⟨localStart.x + x, localStart.y + y, localStart.z + z⟩

/-- Embedding of `FsGrid::globalToLocal` (src/src/grid.hpp, lines 504-516): global cell
coordinates into the local domain, with the sentinel triple (-1,-1,-1)
returned when any component of the difference is outside the local
domain. -/
def globalToLocal (localStart localSize : Vec3) (x y z : ℤ) : Vec3 :=
  if localSize.x ≤ x - localStart.x ∨ localSize.y ≤ y - localStart.y ∨
      localSize.z ≤ z - localStart.z ∨ x - localStart.x < 0 ∨
      y - localStart.y < 0 ∨ z - localStart.z < 0 then
    ⟨-1, -1, -1⟩
  else
    ⟨x - localStart.x, y - localStart.y, z - localStart.z⟩

/-- Bounds test of `FsGrid::get(LocalID)` (src/src/grid.hpp, lines
727-735): the source returns NULL when `id < 0` or
`(size_t)id > data.size()`, and otherwise the address of `data[id]`; the
accepted index is modelled as `some id`. -/
def getByLocalID (dataSize : ℕ) (id : ℤ) : Option ℤ :=
  if id < 0 ∨ (dataSize : ℤ) < id then none else some id

/-- Embedding of `fsgrid_detail::xyzToLinear` (src/unnamed/part_005, lines 51-53; also
`FsGrid::xyzToLinear`, src/unnamed/part_004, line 558): the linear index
of a neighbour triplet in {-1,0,1}³. -/
def xyzToLinear (x y z : ℤ) : ℤ :=
  (x + 1) * 9 + (y + 1) * 3 + (z + 1)

/-- Embedding of `fsgrid_detail::linearToX` (src/unnamed/part_005, line 57). -/
def linearToX (i : ℕ) : ℤ := (i : ℤ) / 9 - 1

/-- Embedding of `fsgrid_detail::linearToY` (src/unnamed/part_005, line 58). -/
def linearToY (i : ℕ) : ℤ := (i : ℤ) % 9 / 3 - 1

/-- Embedding of `fsgrid_detail::linearToZ` (src/unnamed/part_005, line 59). -/
def linearToZ (i : ℕ) : ℤ := (i : ℤ) % 3 - 1

/-- Modelled from the spec: `FsGridTools::calcLocalSize` lives in
tools.hpp, which is not part of the repository snapshot.  Spec invariant 3
defines the local size of task `t` on an axis of global extent `G` split
over `P` tasks as `⌊G/P⌋ + (t < G mod P ? 1 : 0)`. -/
def calcLocalSize (G P t : ℕ) : ℕ :=
  G / P + (if t < G % P then 1 else 0)

/-- Modelled from the spec: `FsGridTools::calcLocalStart` (missing
tools.hpp).  The local start is the prefix sum of the local sizes of the
preceding tasks, which evaluates to `t·⌊G/P⌋ + min t (G mod P)`. -/
def calcLocalStart (G P t : ℕ) : ℕ :=
  t * (G / P) + min t (G % P)

/-- Modelled from the spec: `FsGridTools::globalIDtoCellCoord` (missing
tools.hpp) inverts the GlobalID encoding `gid = gx + Gx·gy + Gx·Gy·gz`
of spec section 3. -/
def globalIDtoCellCoord (id : ℕ) (G : Nat3) : Nat3 :=
  ⟨id % G.x, id / G.x % G.y, id / (G.x * G.y)⟩

/-- Embedding of `FsGrid::GlobalIDForCoords` (src/src/grid.hpp, lines 523-526):
global ID of a local cell, also called globalIDFromLocalCoordinates in
the redirecting façade (src/unnamed/part_005, lines 333-335). -/
def GlobalIDForCoords (G ls : Nat3) (x y z : ℕ) : ℕ :=
  x + ls.x + G.x * (y + ls.y) + G.x * G.y * (z + ls.z)

/-- Per-axis task lookup of `FsGrid::getTaskForGlobalID` (src/src/grid.hpp,
lines 452-461): the unbalanced remainder rule with `n_per_task = G/P` and
`remainder = G mod P`. -/
def taskIndexForCellCoord (G P cell : ℕ) : ℕ :=
  if cell < G % P * (G / P + 1) then cell / (G / P + 1)
  else G % P + (cell - G % P * (G / P + 1)) / (G / P)

/-- Modelled from the spec: the cartesian communicator (an MPI primitive,
outside the embedded sources) maps task positions to ranks row-major;
`MPI_Cart_create` is called with reorder false, and `MPI_Cart_coords` and
`MPI_Cart_rank` are mutually inverse. -/
def cartRank (P t : Nat3) : ℕ :=
  (t.x * P.y + t.y) * P.z + t.z

/-- Embedding of `FsGrid::getTaskForGlobalID` (src/src/grid.hpp, lines 446-473;
src/unnamed/part_005, lines 483-489), task component: decode the global
ID into a global cell, apply the remainder rule per axis, and resolve the
resulting task position through the cartesian communicator. -/
def getTaskForGlobalID (G P : Nat3) (id : ℕ) : ℕ :=
  cartRank P
    ⟨taskIndexForCellCoord G.x P.x (globalIDtoCellCoord id G).x,
     taskIndexForCellCoord G.y P.y (globalIDtoCellCoord id G).y,
     taskIndexForCellCoord G.z P.z (globalIDtoCellCoord id G).z⟩

/-- Skip condition of the MPI datatype construction (src/src/grid.hpp,
lines 338-344; src/unnamed/part_005, lines 202-206): the self direction
and any direction stepping in a collapsed (storage size 1) axis gets no
datatype. -/
def skipDatatype (s : Vec3) (x y z : ℤ) : Prop :=
  (s.x = 1 ∧ x ≠ 0) ∨ (s.y = 1 ∧ y ≠ 0) ∨ (s.z = 1 ∧ z ≠ 0) ∨ (x = 0 ∧ y = 0 ∧ z = 0)

/-- Whether `neighbourSendType` at direction `(x,y,z)` is
MPI_DATATYPE_NULL: the constructor assigns null exactly in the skip
branch (src/src/grid.hpp, line 341) and otherwise creates the send
subarray type (lines 372-373). -/
def sendTypeIsNull (s : Vec3) (x y z : ℤ) : Prop :=
  skipDatatype s x y z

/-- Whether `neighbourReceiveType` at direction `(x,y,z)` is
MPI_DATATYPE_NULL: assigned null in the same skip branch
(src/src/grid.hpp, line 342) and otherwise created as the receive
subarray type (lines 398-399). -/
def receiveTypeIsNull (s : Vec3) (x y z : ℤ) : Prop :=
  skipDatatype s x y z

/-- Linear direction id `(x+1)·9 + (y+1)·3 + (z+1)` used by the exchange
loops (src/src/grid.hpp, line 566). -/
def shiftIdOf (x y z : ℤ) : ℕ :=
  ((x + 1) * 9 + (y + 1) * 3 + (z + 1)).toNat

/-- Opposite direction id `(1-x)·9 + (1-y)·3 + (1-z)` (src/src/grid.hpp,
line 567). -/
def receiveIdOf (x y z : ℤ) : ℕ :=
  ((1 - x) * 9 + (1 - y) * 3 + (1 - z)).toNat

/-- Receive-posting condition of `FsGrid::updateGhostCells`
(src/src/grid.hpp, lines 563-574; identically src/unnamed/part_005, lines
431-442): a receive for direction `(x,y,z)` is posted iff the neighbour
at the opposite direction is a real rank and — as the source is written —
the SEND datatype of the direction is non-null.  `neighbour` maps a
direction id to its rank, `none` standing for MPI_PROC_NULL. -/
def receivePosted (neighbour : ℕ → Option ℕ) (s : Vec3) (x y z : ℤ) : Prop :=
  neighbour (receiveIdOf x y z) ≠ none ∧ ¬ sendTypeIsNull s x y z

/-- Send-posting condition of `FsGrid::updateGhostCells`
(src/src/grid.hpp, lines 576-587; src/unnamed/part_005, lines 444-451):
a send for direction `(x,y,z)` is posted iff the neighbour at that
direction is a real rank and the send datatype is non-null. -/
def sendPosted (neighbour : ℕ → Option ℕ) (s : Vec3) (x y z : ℤ) : Prop :=
  neighbour (shiftIdOf x y z) ≠ none ∧ ¬ sendTypeIsNull s x y z

/-- One iteration of `fsgrid_detail::mapNeighbourRankToIndex`
(src/unnamed/part_005, lines 106-111): write the running position `n`
into the table at the rank, but only when the rank is valid
(`rank >= 0 && numRanks > rank`). -/
def rankToIndexStep (indexToRank : ℕ → ℤ) (numRanks : ℕ) (tbl : ℕ → Option ℕ)
    (n : ℕ) : ℕ → Option ℕ :=
  if 0 ≤ indexToRank n ∧ indexToRank n < numRanks then
    Function.update tbl (indexToRank n).toNat (some n)
  else tbl

/-- Embedding of `fsgrid_detail::mapNeighbourRankToIndex` (src/unnamed/part_005, lines
104-113): the rank → neighbour-index table, built by iterating the 27
entries of `indexToRank` with the counter incremented at every element;
the table starts filled with MPI_PROC_NULL, modelled as `none`. -/
def mapNeighbourRankToIndex (indexToRank : ℕ → ℤ) (numRanks : ℕ) : ℕ → Option ℕ :=
  (List.range 27).foldl (rankToIndexStep indexToRank numRanks) fun _ => none

/-- Modelled from the spec: the Coordinates object of coordinates.hpp,
which is not part of the repository snapshot; only the fields that
`localIDFromCellCoordinates` reads are modelled.  `stencil` is the halo
width H. -/
structure Coordinates where
  globalSize : Vec3
  localSize : Vec3
  stencil : ℤ
deriving DecidableEq, Repr

/-- Modelled from the spec: `Coordinates::cellIndicesAreWithinBounds`
(missing coordinates.hpp).  Spec section 4.3: true iff each component
lies in [−H, Li + H), with single-cell collapsed dimensions requiring the
component to be 0. -/
def cellIndicesAreWithinBounds (e : Coordinates) (x y z : ℤ) : Prop :=
  ((e.globalSize.x ≤ 1 → x = 0) ∧
      (1 < e.globalSize.x → -e.stencil ≤ x ∧ x < e.localSize.x + e.stencil)) ∧
    ((e.globalSize.y ≤ 1 → y = 0) ∧
      (1 < e.globalSize.y → -e.stencil ≤ y ∧ y < e.localSize.y + e.stencil)) ∧
    ((e.globalSize.z ≤ 1 → z = 0) ∧
      (1 < e.globalSize.z → -e.stencil ≤ z ∧ z < e.localSize.z + e.stencil))

instance (e : Coordinates) (x y z : ℤ) : Decidable (cellIndicesAreWithinBounds e x y z) := by
  unfold cellIndicesAreWithinBounds
  infer_instance

/-- Modelled from the spec: `Coordinates::neighbourIndexFromCellCoordinates`
(missing coordinates.hpp).  The locality sign triple of the cell with
respect to [0, localSize) per axis, encoded as 13 + 9dx + 3dy + dz
(spec section 4.4 and glossary). -/
def neighbourIndexFromCellCoordinates (e : Coordinates) (x y z : ℤ) : ℕ :=
  (((13 : ℤ)) + ((if e.localSize.x ≤ x then 1 else 0) - (if x < 0 then 1 else 0)) * 9 +
      ((if e.localSize.y ≤ y then 1 else 0) - (if y < 0 then 1 else 0)) * 3 +
      ((if e.localSize.z ≤ z then 1 else 0) - (if z < 0 then 1 else 0))).toNat

/-- Modelled from the spec: `Coordinates::shiftCellIndices` (missing
coordinates.hpp).  The periodic self-wrap adds −locality·localSize to the
cell (spec section 4.4: shiftVec = −locality·limits). -/
def shiftCellIndices (e : Coordinates) (x y z : ℤ) : Vec3 :=
  ⟨x - ((if e.localSize.x ≤ x then 1 else 0) - (if x < 0 then 1 else 0)) * e.localSize.x,
   y - ((if e.localSize.y ≤ y then 1 else 0) - (if y < 0 then 1 else 0)) * e.localSize.y,
   z - ((if e.localSize.z ≤ z then 1 else 0) - (if z < 0 then 1 else 0)) * e.localSize.z⟩

/-- Modelled from the spec: `Coordinates::localIDFromLocalCoordinates`
(missing coordinates.hpp).  Spec section 4.3: Σ max(0, Hi + ci)·stride
with Hi = H on non-collapsed axes and 0 otherwise, the strides being the
multipliers (1, Sx, Sx·Sy) zeroed on collapsed axes (spec section 3). -/
def localIDFromLocalCoordinates (e : Coordinates) (x y z : ℤ) : ℤ :=
  max 0 ((if 1 < e.globalSize.x then e.stencil else 0) + x) *
      (if e.globalSize.x ≤ 1 then 0 else 1) +
    max 0 ((if 1 < e.globalSize.y then e.stencil else 0) + y) *
      (if e.globalSize.y ≤ 1 then 0
        else (storageSize e.globalSize e.localSize e.stencil).x) +
    max 0 ((if 1 < e.globalSize.z then e.stencil else 0) + z) *
      (if e.globalSize.z ≤ 1 then 0
        else (storageSize e.globalSize e.localSize e.stencil).x *
          (storageSize e.globalSize e.localSize e.stencil).y)

/-- The distinguished invalid LocalID returned by
`localIDFromCellCoordinates`: `std::numeric_limits of int64_t ::min()`
(src/unnamed/part_005, line 372). -/
def sentinelLocalID : ℤ := -(2 ^ 63)

/-- Embedding of `FsGrid::localIDFromCellCoordinates` (src/unnamed/part_005, lines
357-373), for a worker process (`rank ≥ 0`, modelled as a natural
number).  The rank table holds `none` for MPI_PROC_NULL; the
FSGRID_DEBUG_ASSERT calls are diagnostics without effect on the returned
value and are not modelled. -/
def localIDFromCellCoordinates (e : Coordinates) (neighbourIndexToRank : ℕ → Option ℕ)
    (rank : ℕ) (x y z : ℤ) : ℤ :=
  let ni := neighbourIndexFromCellCoordinates e x y z
  let nr := neighbourIndexToRank ni
  let id :=
    if ni ≠ 13 ∧ nr = some rank then
      localIDFromLocalCoordinates e (shiftCellIndices e x y z).x
        (shiftCellIndices e x y z).y (shiftCellIndices e x y z).z
    else localIDFromLocalCoordinates e x y z
  if cellIndicesAreWithinBounds e x y z ∧ (nr = some rank ∨ nr ≠ none) then id
  else sentinelLocalID

-- ===================================================================
-- Theorems
-- ===================================================================

/-- Each bit query returns 0 or 1. -/
theorem BitMask32.get_le_one (bits i : ℕ) : BitMask32.get bits i ≤ 1 := by
  unfold BitMask32.get
  rcases Nat.lt_or_ge i 32 with h | h
  · simp only [if_pos h, one_mul]
    rw [Nat.one_shiftLeft, Nat.and_two_pow, Nat.shiftRight_eq_div_pow,
      Nat.mul_div_cancel _ (Nat.pos_pow_of_pos _ (by norm_num))]
    cases hbit : bits.testBit (i &&& 31) <;> simp
  · simp [Nat.not_lt.mpr h]

/-- Claim C7: BitMask32 indexing is total and branch-safe — for every
`uint32_t` value `bits < 2^32` and every index `i`, `operator[]` returns
the i-th bit of `bits` (that is, `bits / 2^i % 2`) when `i < 32`, returns
0 when `i ≥ 32`, and the result is always 0 or 1. -/
theorem bitMask32_indexing (bits i : ℕ) (hb : bits < 2 ^ 32) :
    BitMask32.get bits i = (if i < 32 then bits / 2 ^ i % 2 else 0) ∧
      BitMask32.get bits i ≤ 1 := by
  refine ⟨?_, BitMask32.get_le_one bits i⟩
  unfold BitMask32.get
  rcases Nat.lt_or_ge i 32 with h | h
  · have hmask : i &&& 31 = i := by
      interval_cases i <;> rfl
    simp only [if_pos h, one_mul, hmask]
    rw [Nat.one_shiftLeft, Nat.and_two_pow, Nat.shiftRight_eq_div_pow,
      Nat.mul_div_cancel _ (Nat.pos_pow_of_pos _ (by norm_num)),
      Nat.testBit_to_div_mod]
    have : bits / 2 ^ i % 2 = 0 ∨ bits / 2 ^ i % 2 = 1 :=
      Nat.mod_two_eq_zero_or_one _
    rcases this with h2 | h2 <;> simp [h2]
  · simp [Nat.not_lt.mpr h]

/-- Witness for `bitMask32_indexing` at a concrete mask and index. -/
theorem bitMask32_indexing_witness :
    (22 : ℕ) < 2 ^ 32 ∧
      (BitMask32.get 22 1 = (if 1 < 32 then 22 / 2 ^ 1 % 2 else 0) ∧
        BitMask32.get 22 1 ≤ 1) :=
  ⟨by norm_num, bitMask32_indexing 22 1 (by norm_num)⟩

/-- For a query whose direction has the fallback bit set, `calculateIndex`
reduces to the dot product taken at the centre cell. -/
theorem FsStencil.calculateIndex_of_fallback (c : StencilConstants) (ctr cell : Vec3)
    (hfb : BitMask32.get c.fallbackToCenter
        (FsStencil.neighbourIndex (FsStencil.localityMultipliers c cell)) = 1) :
    FsStencil.calculateIndex c ctr cell = FsStencil.applyMultipliersAndOffset c ctr := by
  simp only [FsStencil.calculateIndex, hfb, FsStencil.applyMultipliersAndOffset]
  push_cast
  ring_nf

/-- At an in-bounds centre cell, `calculateIndex` of the centre itself is
the plain dot product, whatever the two bit masks hold. -/
theorem FsStencil.calculateIndex_self (c : StencilConstants) (ctr : Vec3)
    (hx : 0 ≤ ctr.x ∧ ctr.x < c.limits.x)
    (hy : 0 ≤ ctr.y ∧ ctr.y < c.limits.y)
    (hz : 0 ≤ ctr.z ∧ ctr.z < c.limits.z) :
    FsStencil.calculateIndex c ctr ctr = FsStencil.applyMultipliersAndOffset c ctr := by
  have hloc : FsStencil.localityMultipliers c ctr = ⟨0, 0, 0⟩ := by
    unfold FsStencil.localityMultipliers
    rw [if_neg (not_le.mpr hx.2), if_neg (not_lt.mpr hx.1),
      if_neg (not_le.mpr hy.2), if_neg (not_lt.mpr hy.1),
      if_neg (not_le.mpr hz.2), if_neg (not_lt.mpr hz.1)]
    norm_num
  have hni : FsStencil.neighbourIndex (⟨0, 0, 0⟩ : Vec3) = 13 := by decide
  have h13 : BitMask32.get c.fallbackToCenter 13 = 0 ∨
      BitMask32.get c.fallbackToCenter 13 = 1 :=
    Nat.le_one_iff_eq_zero_or_eq_one.mp (BitMask32.get_le_one _ _)
  simp only [FsStencil.calculateIndex, hloc, hni, FsStencil.shiftOffsets,
    FsStencil.applyMultipliersAndOffset]
  rcases h13 with h | h <;>
    · rw [h]
      push_cast
      ring_nf

/-- Claim C1: if the neighbour direction of the queried cell has its
`fallbackToCenter` bit set (the neighbour does not exist), then
`calculateIndex` returns the same storage index as `calculateIndex`
applied to the stencil's centre cell itself.  The centre `(i, j, k)` is a
cell of the local domain, i.e. lies within `[0, limits)` per axis. -/
theorem calculateIndex_fallbackToCenter (c : StencilConstants) (ctr cell : Vec3)
    (hx : 0 ≤ ctr.x ∧ ctr.x < c.limits.x)
    (hy : 0 ≤ ctr.y ∧ ctr.y < c.limits.y)
    (hz : 0 ≤ ctr.z ∧ ctr.z < c.limits.z)
    (hfb : BitMask32.get c.fallbackToCenter
        (FsStencil.neighbourIndex (FsStencil.localityMultipliers c cell)) = 1) :
    FsStencil.calculateIndex c ctr cell = FsStencil.calculateIndex c ctr ctr :=
  (FsStencil.calculateIndex_of_fallback c ctr cell hfb).trans
    (FsStencil.calculateIndex_self c ctr hx hy hz).symm

/-- Witness for `calculateIndex_fallbackToCenter`: a 1×1×1 local domain
with the left neighbour absent (fallback bit 4 set); the query one step
left of the centre resolves to the centre's own index. -/
theorem calculateIndex_fallbackToCenter_witness :
    ((0 : ℤ) ≤ 0 ∧ (0 : ℤ) < 1) ∧
      BitMask32.get 16
        (FsStencil.neighbourIndex
          (FsStencil.localityMultipliers ⟨⟨1, 1, 1⟩, ⟨1, 1, 1⟩, 0, 0, 16⟩ ⟨-1, 0, 0⟩)) = 1 ∧
      FsStencil.calculateIndex ⟨⟨1, 1, 1⟩, ⟨1, 1, 1⟩, 0, 0, 16⟩ ⟨0, 0, 0⟩ ⟨-1, 0, 0⟩ =
        FsStencil.calculateIndex ⟨⟨1, 1, 1⟩, ⟨1, 1, 1⟩, 0, 0, 16⟩ ⟨0, 0, 0⟩ ⟨0, 0, 0⟩ :=
  ⟨⟨by norm_num, by norm_num⟩, by decide,
    calculateIndex_fallbackToCenter ⟨⟨1, 1, 1⟩, ⟨1, 1, 1⟩, 0, 0, 16⟩ ⟨0, 0, 0⟩ ⟨-1, 0, 0⟩
      ⟨by norm_num, by norm_num⟩ ⟨by norm_num, by norm_num⟩ ⟨by norm_num, by norm_num⟩
      (by decide)⟩

/-- Per-axis bound used for the storage-index theorem: the contribution
coordinate lies in `[0, storageSizeOfAxis)`. -/
theorem axisTerm_bounds (g l H c : ℤ) (hH : 0 ≤ H) (hc : 0 ≤ c ∧ c < l) :
    0 ≤ (if 1 < g then H + c else 0) ∧
      (if 1 < g then H + c else 0) < storageSizeOfAxis g l H ∧
      1 ≤ storageSizeOfAxis g l H := by
  unfold storageSizeOfAxis
  by_cases hg : g ≤ 1
  · rw [if_neg (not_lt.mpr hg), if_pos hg]
    omega
  · rw [if_pos (not_le.mp hg), if_neg hg]
    omega

/-- Claim C3: for every local inner cell `(x, y, z)` with
`0 ≤ x < Lx, 0 ≤ y < Ly, 0 ≤ z < Lz`, the linear storage index computed
by `LocalIDForCoords` satisfies `0 ≤ id < len(data)`, where the buffer
length is the product of the per-axis storage sizes (`localSize + 2·H`
per non-collapsed axis, 1 per collapsed axis). -/
theorem LocalIDForCoords_in_bounds (G L : Vec3) (H x y z : ℤ) (hH : 0 ≤ H)
    (hx : 0 ≤ x ∧ x < L.x) (hy : 0 ≤ y ∧ y < L.y) (hz : 0 ≤ z ∧ z < L.z) :
    0 ≤ LocalIDForCoords G L H x y z ∧
      LocalIDForCoords G L H x y z < totalStorageSize G L H := by
  obtain ⟨hb0, hb0s, hs0⟩ := axisTerm_bounds G.x L.x H x hH hx
  obtain ⟨hb1, hb1s, hs1⟩ := axisTerm_bounds G.y L.y H y hH hy
  obtain ⟨hb2, hb2s, hs2⟩ := axisTerm_bounds G.z L.z H z hH hz
  set s0 := storageSizeOfAxis G.x L.x H with hs0def
  set s1 := storageSizeOfAxis G.y L.y H with hs1def
  set s2 := storageSizeOfAxis G.z L.z H with hs2def
  set b0 := (if 1 < G.x then H + x else 0) with hb0def
  set b1 := (if 1 < G.y then H + y else 0) with hb1def
  set b2 := (if 1 < G.z then H + z else 0) with hb2def
  have hzterm : (if 1 < G.z then (storageSize G L H).x * (storageSize G L H).y * (H + z) else 0) =
      s0 * s1 * b2 := by
    by_cases h : 1 < G.z <;> simp [h, storageSize, hb2def, hs0def, hs1def]
  have hyterm : (if 1 < G.y then (storageSize G L H).x * (H + y) else 0) = s0 * b1 := by
    by_cases h : 1 < G.y <;> simp [h, storageSize, hb1def, hs0def]
  have hid : LocalIDForCoords G L H x y z = s0 * s1 * b2 + s0 * b1 + b0 := by
    rw [LocalIDForCoords, hzterm, hyterm]
  have htot : totalStorageSize G L H = s0 * s1 * s2 := rfl
  rw [hid, htot]
  constructor
  · have h1 : 0 ≤ s0 * s1 * b2 := by positivity
    have h2 : 0 ≤ s0 * b1 := by positivity
    omega
  · have t2 : s0 * s1 * b2 ≤ s0 * s1 * (s2 - 1) :=
      mul_le_mul_of_nonneg_left (by omega) (by positivity)
    have t1 : s0 * b1 ≤ s0 * (s1 - 1) :=
      mul_le_mul_of_nonneg_left (by omega) (by positivity)
    nlinarith [t2, t1, hb0s, hs0, hs1, hs2]

/-- Witness for `LocalIDForCoords_in_bounds`: a 3×3×3 local domain with
halo width 1 at cell (0,0,0). -/
theorem LocalIDForCoords_in_bounds_witness :
    (0 : ℤ) ≤ 1 ∧ ((0 : ℤ) ≤ 0 ∧ (0 : ℤ) < 3) ∧
      (0 ≤ LocalIDForCoords ⟨3, 3, 3⟩ ⟨3, 3, 3⟩ 1 0 0 0 ∧
        LocalIDForCoords ⟨3, 3, 3⟩ ⟨3, 3, 3⟩ 1 0 0 0 <
          totalStorageSize ⟨3, 3, 3⟩ ⟨3, 3, 3⟩ 1) :=
  ⟨by norm_num, ⟨by norm_num, by norm_num⟩,
    LocalIDForCoords_in_bounds ⟨3, 3, 3⟩ ⟨3, 3, 3⟩ 1 0 0 0 (by norm_num)
      ⟨by norm_num, by norm_num⟩ ⟨by norm_num, by norm_num⟩ ⟨by norm_num, by norm_num⟩⟩

/-- Claim C4: converting a local inner cell to global coordinates by
adding `localStart` and converting back with `globalToLocal` returns
exactly `(x, y, z)`; and `globalToLocal` returns the sentinel triple
(-1,-1,-1) whenever any resulting component lies outside `[0, Li)`. -/
theorem globalToLocal_roundtrip_sentinel (ls L : Vec3) (x y z gx gy gz : ℤ)
    (hx : 0 ≤ x ∧ x < L.x) (hy : 0 ≤ y ∧ y < L.y) (hz : 0 ≤ z ∧ z < L.z)
    (hout : L.x ≤ gx - ls.x ∨ L.y ≤ gy - ls.y ∨ L.z ≤ gz - ls.z ∨
      gx - ls.x < 0 ∨ gy - ls.y < 0 ∨ gz - ls.z < 0) :
    globalToLocal ls L (getGlobalIndices ls x y z).x (getGlobalIndices ls x y z).y
        (getGlobalIndices ls x y z).z = ⟨x, y, z⟩ ∧
      globalToLocal ls L gx gy gz = ⟨-1, -1, -1⟩ := by
  constructor
  · show globalToLocal ls L (ls.x + x) (ls.y + y) (ls.z + z) = ⟨x, y, z⟩
    unfold globalToLocal
    rw [if_neg]
    · congr 1 <;> ring
    · push_neg
      refine ⟨by omega, by omega, by omega, by omega, by omega, by omega⟩
  · unfold globalToLocal
    rw [if_pos hout]

/-- Witness for `globalToLocal_roundtrip_sentinel`: localStart (2,0,0),
local size (3,3,3), inner cell (1,2,0) and out-of-domain global query
(9,0,0). -/
theorem globalToLocal_roundtrip_sentinel_witness :
    ((0 : ℤ) ≤ 1 ∧ (1 : ℤ) < 3) ∧
      ((3 : ℤ) ≤ 9 - 2 ∨ (3 : ℤ) ≤ 0 - 0 ∨ (3 : ℤ) ≤ 0 - 0 ∨
        (9 : ℤ) - 2 < 0 ∨ (0 : ℤ) - 0 < 0 ∨ (0 : ℤ) - 0 < 0) ∧
      (globalToLocal ⟨2, 0, 0⟩ ⟨3, 3, 3⟩ (getGlobalIndices ⟨2, 0, 0⟩ 1 2 0).x
          (getGlobalIndices ⟨2, 0, 0⟩ 1 2 0).y (getGlobalIndices ⟨2, 0, 0⟩ 1 2 0).z =
          ⟨1, 2, 0⟩ ∧
        globalToLocal ⟨2, 0, 0⟩ ⟨3, 3, 3⟩ 9 0 0 = ⟨-1, -1, -1⟩) :=
  ⟨⟨by norm_num, by norm_num⟩, by norm_num,
    globalToLocal_roundtrip_sentinel ⟨2, 0, 0⟩ ⟨3, 3, 3⟩ 1 2 0 9 0 0
      ⟨by norm_num, by norm_num⟩ ⟨by norm_num, by norm_num⟩ ⟨by norm_num, by norm_num⟩
      (by norm_num)⟩

/-- Claim C8 (code bug): the bounds check of `get(LocalID)` in
src/src/grid.hpp uses `(size_t)id > data.size()` instead of `>=`, so the
call with `id = data.size()` (here a buffer of length 1 and `id = 1`) is
accepted and yields a pointer one past the end of the buffer, although
`id` is outside the valid range `[0, len(data))`. -/
theorem getByLocalID_boundary_bug :
    getByLocalID 1 1 = some 1 ∧ ¬ ((0 : ℤ) ≤ 1 ∧ (1 : ℤ) < ((1 : ℕ) : ℤ)) := by
  refine ⟨?_, by norm_num⟩
  unfold getByLocalID
  norm_num

/-- Claim C9: for every `n` in `[0, 26]`, decoding the linear index into
the offset triple and re-encoding gives back `n`, where the decoders are
`linearToX n = n/9 - 1`, `linearToY n = (n%9)/3 - 1`,
`linearToZ n = n%3 - 1` (integer division). -/
theorem linearToXYZ_roundtrip (n : ℕ) (h : n < 27) :
    xyzToLinear (linearToX n) (linearToY n) (linearToZ n) = n ∧
      linearToX n = (n : ℤ) / 9 - 1 ∧ linearToY n = (n : ℤ) % 9 / 3 - 1 ∧
      linearToZ n = (n : ℤ) % 3 - 1 := by
  refine ⟨?_, rfl, rfl, rfl⟩
  unfold xyzToLinear linearToX linearToY linearToZ
  omega

/-- Witness for `linearToXYZ_roundtrip` at `n = 5`. -/
theorem linearToXYZ_roundtrip_witness :
    (5 : ℕ) < 27 ∧
      (xyzToLinear (linearToX 5) (linearToY 5) (linearToZ 5) = 5 ∧
        linearToX 5 = (5 : ℤ) / 9 - 1 ∧ linearToY 5 = (5 : ℤ) % 9 / 3 - 1 ∧
        linearToZ 5 = (5 : ℤ) % 3 - 1) :=
  ⟨by norm_num, linearToXYZ_roundtrip 5 (by norm_num)⟩

/-- The local slabs tile the axis: start plus size of task `t` stays
within the global extent. -/
theorem calcLocalStart_add_size_le (G P t : ℕ) (ht : t < P) :
    calcLocalStart G P t + calcLocalSize G P t ≤ G := by
  have hdm : P * (G / P) + G % P = G := Nat.div_add_mod G P
  have hq : (t + 1) * (G / P) ≤ P * (G / P) :=
    Nat.mul_le_mul_right _ (Nat.succ_le_of_lt ht)
  have he : (t + 1) * (G / P) = t * (G / P) + G / P := by ring
  unfold calcLocalStart calcLocalSize
  rcases Nat.lt_or_ge t (G % P) with h | h
  · rw [if_pos h, min_eq_left (le_of_lt h)]
    omega
  · rw [if_neg (not_lt.mpr h), min_eq_right h]
    omega

/-- The remainder rule of `getTaskForGlobalID` recovers the owning task:
any cell of task `t`'s slab on an axis maps back to `t`. -/
theorem taskIndexForCellCoord_of_local (G P t x : ℕ) (ht : t < P)
    (hx : x < calcLocalSize G P t) :
    taskIndexForCellCoord G P (calcLocalStart G P t + x) = t := by
  have hq1 : 0 < G / P + 1 := Nat.succ_pos _
  unfold calcLocalSize at hx
  unfold calcLocalStart taskIndexForCellCoord
  rcases Nat.lt_or_ge t (G % P) with h | h
  · have hsize : x < G / P + 1 := by
      rw [if_pos h] at hx
      omega
    have hcell : t * (G / P) + min t (G % P) + x = t * (G / P + 1) + x := by
      rw [min_eq_left (le_of_lt h)]
      ring
    rw [hcell]
    have hlt : t * (G / P + 1) + x < G % P * (G / P + 1) := by
      have h1 : (t + 1) * (G / P + 1) ≤ G % P * (G / P + 1) :=
        Nat.mul_le_mul_right _ (Nat.succ_le_of_lt h)
      have h2 : (t + 1) * (G / P + 1) = t * (G / P + 1) + (G / P + 1) := by ring
      omega
    rw [if_pos hlt]
    have hcomm : t * (G / P + 1) + x = (G / P + 1) * t + x := by ring
    rw [hcomm, Nat.mul_add_div hq1, Nat.div_eq_of_lt hsize, Nat.add_zero]
  · have hxq : x < G / P := by
      rw [if_neg (not_lt.mpr h)] at hx
      omega
    have hq : 0 < G / P := lt_of_le_of_lt (Nat.zero_le x) hxq
    have hcell : t * (G / P) + min t (G % P) + x = t * (G / P) + G % P + x := by
      rw [min_eq_right h]
    rw [hcell]
    have h1 : G % P * (G / P) ≤ t * (G / P) := Nat.mul_le_mul_right _ h
    have h2 : G % P * (G / P + 1) = G % P * (G / P) + G % P := by ring
    have hge : ¬ (t * (G / P) + G % P + x < G % P * (G / P + 1)) := by
      push_neg
      omega
    rw [if_neg hge]
    have h4 : (t - G % P) * (G / P) = t * (G / P) - G % P * (G / P) := Nat.sub_mul _ _ _
    have h3 : t * (G / P) + G % P + x - G % P * (G / P + 1) = (t - G % P) * (G / P) + x := by
      omega
    rw [h3]
    have hcomm : (t - G % P) * (G / P) + x = G / P * (t - G % P) + x := by ring
    rw [hcomm, Nat.mul_add_div hq, Nat.div_eq_of_lt hxq, Nat.add_zero]
    omega

/-- Decoding a global ID built from in-range global cell coordinates
recovers those coordinates. -/
theorem globalIDtoCellCoord_encode (G : Nat3) (gx gy gz : ℕ)
    (hx : gx < G.x) (hy : gy < G.y) (hz : gz < G.z) :
    globalIDtoCellCoord (gx + G.x * gy + G.x * G.y * gz) G = ⟨gx, gy, gz⟩ := by
  have hGx : 0 < G.x := lt_of_le_of_lt (Nat.zero_le gx) hx
  have hGy : 0 < G.y := lt_of_le_of_lt (Nat.zero_le gy) hy
  have e1 : gx + G.x * gy + G.x * G.y * gz = gx + G.x * (gy + G.y * gz) := by ring
  have hxc : (gx + G.x * gy + G.x * G.y * gz) % G.x = gx := by
    rw [e1, Nat.add_mul_mod_self_left, Nat.mod_eq_of_lt hx]
  have hyc : (gx + G.x * gy + G.x * G.y * gz) / G.x % G.y = gy := by
    rw [e1, Nat.add_mul_div_left _ _ hGx, Nat.div_eq_of_lt hx, Nat.zero_add,
      Nat.add_mul_mod_self_left, Nat.mod_eq_of_lt hy]
  have hzc : (gx + G.x * gy + G.x * G.y * gz) / (G.x * G.y) = gz := by
    have e2 : gx + G.x * gy + G.x * G.y * gz = gx + G.x * gy + G.x * G.y * gz := rfl
    have hlt : gx + G.x * gy < G.x * G.y := by
      calc gx + G.x * gy < G.x + G.x * gy := by omega
        _ = G.x * (gy + 1) := by ring
        _ ≤ G.x * G.y := Nat.mul_le_mul_left _ (by omega)
    have e3 : gx + G.x * gy + G.x * G.y * gz = gx + G.x * gy + G.x * G.y * gz := rfl
    rw [show gx + G.x * gy + G.x * G.y * gz = (gx + G.x * gy) + G.x * G.y * gz from rfl,
      Nat.add_mul_div_left _ _ (Nat.mul_pos hGx hGy), Nat.div_eq_of_lt hlt, Nat.zero_add]
  unfold globalIDtoCellCoord
  rw [hxc, hyc, hzc]

/-- Claim C2: for every local inner cell `(x, y, z)` of the worker at task
position `t` (with rank `r` under the row-major cartesian rank map),
`getTaskForGlobalID` applied to the cell's global ID returns `r` — the
owning process itself. -/
theorem getTaskForGlobalID_of_localCell (G P t : Nat3) (r x y z : ℕ)
    (htx : t.x < P.x) (hty : t.y < P.y) (htz : t.z < P.z)
    (hx : x < calcLocalSize G.x P.x t.x) (hy : y < calcLocalSize G.y P.y t.y)
    (hz : z < calcLocalSize G.z P.z t.z)
    (hr : r = cartRank P t) :
    getTaskForGlobalID G P
      (GlobalIDForCoords G
        ⟨calcLocalStart G.x P.x t.x, calcLocalStart G.y P.y t.y, calcLocalStart G.z P.z t.z⟩
        x y z) = r := by
  subst hr
  have hsx := calcLocalStart_add_size_le G.x P.x t.x htx
  have hsy := calcLocalStart_add_size_le G.y P.y t.y hty
  have hsz := calcLocalStart_add_size_le G.z P.z t.z htz
  have hgx : x + calcLocalStart G.x P.x t.x < G.x := by omega
  have hgy : y + calcLocalStart G.y P.y t.y < G.y := by omega
  have hgz : z + calcLocalStart G.z P.z t.z < G.z := by omega
  have henc : GlobalIDForCoords G
      ⟨calcLocalStart G.x P.x t.x, calcLocalStart G.y P.y t.y, calcLocalStart G.z P.z t.z⟩
      x y z =
      (x + calcLocalStart G.x P.x t.x) + G.x * (y + calcLocalStart G.y P.y t.y) +
        G.x * G.y * (z + calcLocalStart G.z P.z t.z) := rfl
  unfold getTaskForGlobalID
  rw [henc, globalIDtoCellCoord_encode G _ _ _ hgx hgy hgz]
  have hcx : x + calcLocalStart G.x P.x t.x = calcLocalStart G.x P.x t.x + x :=
    Nat.add_comm _ _
  have hcy : y + calcLocalStart G.y P.y t.y = calcLocalStart G.y P.y t.y + y :=
    Nat.add_comm _ _
  have hcz : z + calcLocalStart G.z P.z t.z = calcLocalStart G.z P.z t.z + z :=
    Nat.add_comm _ _
  show cartRank P
      ⟨taskIndexForCellCoord G.x P.x (x + calcLocalStart G.x P.x t.x),
       taskIndexForCellCoord G.y P.y (y + calcLocalStart G.y P.y t.y),
       taskIndexForCellCoord G.z P.z (z + calcLocalStart G.z P.z t.z)⟩ = cartRank P t
  rw [hcx, hcy, hcz, taskIndexForCellCoord_of_local G.x P.x t.x x htx hx,
    taskIndexForCellCoord_of_local G.y P.y t.y y hty hy,
    taskIndexForCellCoord_of_local G.z P.z t.z z htz hz]

/-- Witness for `getTaskForGlobalID_of_localCell`: global domain (5,3,2),
task grid (2,1,1), task (1,0,0) owning x-cells 3 and 4, inner cell
(1,0,1). -/
theorem getTaskForGlobalID_of_localCell_witness :
    (1 : ℕ) < 2 ∧ (1 : ℕ) < calcLocalSize 5 2 1 ∧ (1 : ℕ) < calcLocalSize 2 1 0 ∧
      getTaskForGlobalID ⟨5, 3, 2⟩ ⟨2, 1, 1⟩
        (GlobalIDForCoords ⟨5, 3, 2⟩
          ⟨calcLocalStart 5 2 1, calcLocalStart 3 1 0, calcLocalStart 2 1 0⟩ 1 0 1) =
        cartRank ⟨2, 1, 1⟩ ⟨1, 0, 0⟩ :=
  ⟨by decide, by decide, by decide,
    getTaskForGlobalID_of_localCell ⟨5, 3, 2⟩ ⟨2, 1, 1⟩ ⟨1, 0, 0⟩
      (cartRank ⟨2, 1, 1⟩ ⟨1, 0, 0⟩) 1 0 1 (by decide) (by decide) (by decide)
      (by decide) (by decide) (by decide) rfl⟩

/-- Claim C5: in `updateGhostCells`, for every direction, a receive is
posted iff the receive-side descriptor for the direction and the source
rank (the neighbour at the opposite direction) are both non-null, and a
send is posted iff the send-side descriptor and the destination rank are
both non-null.  The source gates the receive on the send-side descriptor,
but the two descriptors are null for exactly the same directions (the
shared skip branch), so the as-written condition coincides with the
intuitive contract for every storage shape, collapsed dimensions
included. -/
theorem updateGhostCells_gating (neighbour : ℕ → Option ℕ) (s : Vec3) (x y z : ℤ) :
    (receivePosted neighbour s x y z ↔
        neighbour (receiveIdOf x y z) ≠ none ∧ ¬ receiveTypeIsNull s x y z) ∧
      (sendPosted neighbour s x y z ↔
        neighbour (shiftIdOf x y z) ≠ none ∧ ¬ sendTypeIsNull s x y z) :=
  ⟨Iff.rfl, Iff.rfl⟩

/-- Entries of the rank-to-index fold are sound: whatever the table holds
for rank `r` was written from a position of the processed list whose
`indexToRank` entry is `r`. -/
theorem rankToIndexFold_sound (itr : ℕ → ℤ) (numRanks r : ℕ) (l : List ℕ)
    (hl : ∀ n ∈ l, n < 27) (tbl : ℕ → Option ℕ)
    (htbl : ∀ m, tbl r = some m → itr m = (r : ℤ) ∧ m < 27) :
    ∀ m, (l.foldl (rankToIndexStep itr numRanks) tbl) r = some m →
      itr m = (r : ℤ) ∧ m < 27 := by
  induction l generalizing tbl with
  | nil => exact htbl
  | cons a l ih =>
    intro m hm
    rw [List.foldl_cons] at hm
    refine ih (fun n hn => hl n (List.mem_cons_of_mem a hn)) _ ?_ m hm
    intro m' hm'
    unfold rankToIndexStep at hm'
    by_cases hv : 0 ≤ itr a ∧ itr a < numRanks
    · rw [if_pos hv] at hm'
      rcases eq_or_ne r (itr a).toNat with he | hne
      · rw [he, Function.update_same] at hm'
        obtain rfl : a = m' := by injection hm'
        refine ⟨by omega, hl a (List.mem_cons_self a l)⟩
      · rw [Function.update_noteq hne] at hm'
        exact htbl m' hm'
    · rw [if_neg hv] at hm'
      exact htbl m' hm'

/-- The rank-to-index fold never erases an entry. -/
theorem rankToIndexFold_ne_none (itr : ℕ → ℤ) (numRanks r : ℕ) (l : List ℕ)
    (tbl : ℕ → Option ℕ) (htbl : tbl r ≠ none) :
    (l.foldl (rankToIndexStep itr numRanks) tbl) r ≠ none := by
  induction l generalizing tbl with
  | nil => exact htbl
  | cons a l ih =>
    rw [List.foldl_cons]
    refine ih _ ?_
    unfold rankToIndexStep
    by_cases hv : 0 ≤ itr a ∧ itr a < numRanks
    · rw [if_pos hv]
      rcases eq_or_ne r (itr a).toNat with he | hne
      · rw [he, Function.update_same]
        simp
      · rw [Function.update_noteq hne]
        exact htbl
    · rw [if_neg hv]
      exact htbl

/-- A valid rank occurring in the processed list ends up written in the
rank-to-index fold. -/
theorem rankToIndexFold_written (itr : ℕ → ℤ) (numRanks r : ℕ) (hr : r < numRanks)
    (l : List ℕ) (tbl : ℕ → Option ℕ) (hex : ∃ n ∈ l, itr n = (r : ℤ)) :
    (l.foldl (rankToIndexStep itr numRanks) tbl) r ≠ none := by
  induction l generalizing tbl with
  | nil =>
    rcases hex with ⟨n, hn, _⟩
    cases hn
  | cons a l ih =>
    rcases hex with ⟨n, hn, hv⟩
    rcases List.mem_cons.mp hn with rfl | hmem
    · rw [List.foldl_cons]
      apply rankToIndexFold_ne_none
      unfold rankToIndexStep
      have hva : 0 ≤ itr n ∧ itr n < numRanks := by
        rw [hv]
        exact ⟨Int.natCast_nonneg r, by exact_mod_cast hr⟩
      rw [if_pos hva]
      have hk : (itr n).toNat = r := by
        rw [hv]
        exact Int.toNat_natCast r
      rw [hk, Function.update_same]
      simp
    · rw [List.foldl_cons]
      exact ih _ ⟨n, hmem, hv⟩

/-- Claim C6: the table built by `mapNeighbourRankToIndex` is an inverse
lookup.  For every valid rank `r < numRanks`: if `r` occurs at some
linear index `n < 27` of `indexToRank` then the table maps `r` to an
index `m < 27` with `indexToRank m = r`; if `r` occurs nowhere, the table
maps `r` to the null sentinel (`none`). -/
theorem mapNeighbourRankToIndex_inverse (indexToRank : ℕ → ℤ) (numRanks r : ℕ)
    (hr : r < numRanks) :
    ((∃ n, n < 27 ∧ indexToRank n = (r : ℤ)) →
        ∃ m, m < 27 ∧ mapNeighbourRankToIndex indexToRank numRanks r = some m ∧
          indexToRank m = (r : ℤ)) ∧
      ((∀ n, n < 27 → indexToRank n ≠ (r : ℤ)) →
        mapNeighbourRankToIndex indexToRank numRanks r = none) := by
  constructor
  · rintro ⟨n, hn, hv⟩
    have hne : mapNeighbourRankToIndex indexToRank numRanks r ≠ none :=
      rankToIndexFold_written indexToRank numRanks r hr (List.range 27)
        (fun _ => none) ⟨n, List.mem_range.mpr hn, hv⟩
    obtain ⟨m, hm⟩ := Option.ne_none_iff_exists.mp hne
    have hs := rankToIndexFold_sound indexToRank numRanks r (List.range 27)
      (fun k hk => List.mem_range.mp hk) (fun _ => none)
      (fun m h => Option.noConfusion h) m hm.symm
    exact ⟨m, hs.2, hm.symm, hs.1⟩
  · intro hall
    by_contra hne
    obtain ⟨m, hm⟩ := Option.ne_none_iff_exists.mp hne
    have hs := rankToIndexFold_sound indexToRank numRanks r (List.range 27)
      (fun k hk => List.mem_range.mp hk) (fun _ => none)
      (fun m h => Option.noConfusion h) m hm.symm
    exact hall m hs.2 hs.1

/-- Witness for `mapNeighbourRankToIndex_inverse`: a single-rank table in
which only the self slot (index 13) holds rank 0. -/
theorem mapNeighbourRankToIndex_inverse_witness :
    (0 : ℕ) < 1 ∧
      (∃ m, m < 27 ∧
        mapNeighbourRankToIndex (fun n => if n = 13 then (0 : ℤ) else -1) 1 0 = some m ∧
        (if m = 13 then (0 : ℤ) else -1) = ((0 : ℕ) : ℤ)) :=
  ⟨Nat.one_pos,
    (mapNeighbourRankToIndex_inverse (fun n => if n = 13 then (0 : ℤ) else -1) 1 0
      Nat.one_pos).1 ⟨13, by norm_num, by norm_num⟩⟩

/-- With a non-negative halo width and local sizes, the spec's
localIDFromLocalCoordinates value is non-negative on every input — in
particular it never collides with the sentinel. -/
theorem localIDFromLocalCoordinates_nonneg (e : Coordinates) (x y z : ℤ)
    (hH : 0 ≤ e.stencil) (hLx : 0 ≤ e.localSize.x) (hLy : 0 ≤ e.localSize.y) :
    0 ≤ localIDFromLocalCoordinates e x y z := by
  have hsx : 0 ≤ (storageSize e.globalSize e.localSize e.stencil).x := by
    show 0 ≤ storageSizeOfAxis e.globalSize.x e.localSize.x e.stencil
    unfold storageSizeOfAxis
    by_cases h : e.globalSize.x ≤ 1 <;> simp [h] <;> omega
  have hsy : 0 ≤ (storageSize e.globalSize e.localSize e.stencil).y := by
    show 0 ≤ storageSizeOfAxis e.globalSize.y e.localSize.y e.stencil
    unfold storageSizeOfAxis
    by_cases h : e.globalSize.y ≤ 1 <;> simp [h] <;> omega
  unfold localIDFromLocalCoordinates
  have t1 : (0 : ℤ) ≤ max 0 ((if 1 < e.globalSize.x then e.stencil else 0) + x) *
      (if e.globalSize.x ≤ 1 then 0 else 1) := by
    apply mul_nonneg (le_max_left _ _)
    by_cases h : e.globalSize.x ≤ 1 <;> simp [h]
  have t2 : (0 : ℤ) ≤ max 0 ((if 1 < e.globalSize.y then e.stencil else 0) + y) *
      (if e.globalSize.y ≤ 1 then 0
        else (storageSize e.globalSize e.localSize e.stencil).x) := by
    apply mul_nonneg (le_max_left _ _)
    by_cases h : e.globalSize.y ≤ 1 <;> simp [h, hsx]
  have t3 : (0 : ℤ) ≤ max 0 ((if 1 < e.globalSize.z then e.stencil else 0) + z) *
      (if e.globalSize.z ≤ 1 then 0
        else (storageSize e.globalSize e.localSize e.stencil).x *
          (storageSize e.globalSize e.localSize e.stencil).y) := by
    apply mul_nonneg (le_max_left _ _)
    by_cases h : e.globalSize.z ≤ 1 <;> simp [h]
    exact mul_nonneg hsx hsy
  linarith

/-- Claim C10: on a worker process, `localIDFromCellCoordinates` returns
the sentinel `numeric_limits of LocalID ::min()` exactly when the cell
coordinates are outside the allowed halo bounds or the neighbour owning
the cell does not exist; for all other inputs it returns a (non-sentinel)
local ID, applying the periodic self-wrap shift when the owning neighbour
is this process itself and the direction is not the centre. -/
theorem localIDFromCellCoordinates_contract (e : Coordinates)
    (tbl : ℕ → Option ℕ) (rank : ℕ) (x y z : ℤ)
    (hH : 0 ≤ e.stencil) (hLx : 0 ≤ e.localSize.x) (hLy : 0 ≤ e.localSize.y) :
    (localIDFromCellCoordinates e tbl rank x y z = sentinelLocalID ↔
        ¬ cellIndicesAreWithinBounds e x y z ∨
          tbl (neighbourIndexFromCellCoordinates e x y z) = none) ∧
      (cellIndicesAreWithinBounds e x y z →
        tbl (neighbourIndexFromCellCoordinates e x y z) ≠ none →
        localIDFromCellCoordinates e tbl rank x y z =
          if neighbourIndexFromCellCoordinates e x y z ≠ 13 ∧
              tbl (neighbourIndexFromCellCoordinates e x y z) = some rank then
            localIDFromLocalCoordinates e (shiftCellIndices e x y z).x
              (shiftCellIndices e x y z).y (shiftCellIndices e x y z).z
          else localIDFromLocalCoordinates e x y z) := by
  have hid : ∀ u v w : ℤ, localIDFromLocalCoordinates e u v w ≠ sentinelLocalID := by
    intro u v w h
    have := localIDFromLocalCoordinates_nonneg e u v w hH hLx hLy
    rw [h] at this
    unfold sentinelLocalID at this
    omega
  unfold localIDFromCellCoordinates
  by_cases hcond : cellIndicesAreWithinBounds e x y z ∧
      (tbl (neighbourIndexFromCellCoordinates e x y z) = some rank ∨
        tbl (neighbourIndexFromCellCoordinates e x y z) ≠ none)
  · rw [if_pos hcond]
    constructor
    · constructor
      · intro h
        by_cases hsel : neighbourIndexFromCellCoordinates e x y z ≠ 13 ∧
            tbl (neighbourIndexFromCellCoordinates e x y z) = some rank
        · rw [if_pos hsel] at h
          exact absurd h (hid _ _ _)
        · rw [if_neg hsel] at h
          exact absurd h (hid _ _ _)
      · intro h
        rcases h with h | h
        · exact absurd hcond.1 h
        · rcases hcond.2 with hs | hn
          · rw [hs] at h
            cases h
          · exact absurd h hn
    · intro _ _
      rfl
  · rw [if_neg hcond]
    push_neg at hcond
    constructor
    · constructor
      · intro _
        by_cases hw : cellIndicesAreWithinBounds e x y z
        · exact Or.inr (hcond hw).2
        · exact Or.inl hw
      · intro _
        rfl
    · intro hw hn
      exact absurd (hcond hw).2 hn

/-- Witness for `localIDFromCellCoordinates_contract`: a 3×3×3 local
domain with halo 1 whose only neighbour entry is self at index 13,
queried at the centre cell (0,0,0). -/
theorem localIDFromCellCoordinates_contract_witness :
    ((0 : ℤ) ≤ 1 ∧ (0 : ℤ) ≤ 3) ∧
      ((localIDFromCellCoordinates ⟨⟨3, 3, 3⟩, ⟨3, 3, 3⟩, 1⟩
            (fun n => if n = 13 then some 0 else none) 0 0 0 0 = sentinelLocalID ↔
          ¬ cellIndicesAreWithinBounds ⟨⟨3, 3, 3⟩, ⟨3, 3, 3⟩, 1⟩ 0 0 0 ∨
            (fun n => if n = 13 then some 0 else none)
              (neighbourIndexFromCellCoordinates ⟨⟨3, 3, 3⟩, ⟨3, 3, 3⟩, 1⟩ 0 0 0) = none) ∧
        (cellIndicesAreWithinBounds ⟨⟨3, 3, 3⟩, ⟨3, 3, 3⟩, 1⟩ 0 0 0 →
          (fun n => if n = 13 then some 0 else none)
              (neighbourIndexFromCellCoordinates ⟨⟨3, 3, 3⟩, ⟨3, 3, 3⟩, 1⟩ 0 0 0) ≠ none →
          localIDFromCellCoordinates ⟨⟨3, 3, 3⟩, ⟨3, 3, 3⟩, 1⟩
              (fun n => if n = 13 then some 0 else none) 0 0 0 0 =
            if neighbourIndexFromCellCoordinates ⟨⟨3, 3, 3⟩, ⟨3, 3, 3⟩, 1⟩ 0 0 0 ≠ 13 ∧
                (fun n => if n = 13 then some 0 else none)
                  (neighbourIndexFromCellCoordinates ⟨⟨3, 3, 3⟩, ⟨3, 3, 3⟩, 1⟩ 0 0 0) =
                  some 0 then
              localIDFromLocalCoordinates ⟨⟨3, 3, 3⟩, ⟨3, 3, 3⟩, 1⟩
                (shiftCellIndices ⟨⟨3, 3, 3⟩, ⟨3, 3, 3⟩, 1⟩ 0 0 0).x
                (shiftCellIndices ⟨⟨3, 3, 3⟩, ⟨3, 3, 3⟩, 1⟩ 0 0 0).y
                (shiftCellIndices ⟨⟨3, 3, 3⟩, ⟨3, 3, 3⟩, 1⟩ 0 0 0).z
            else localIDFromLocalCoordinates ⟨⟨3, 3, 3⟩, ⟨3, 3, 3⟩, 1⟩ 0 0 0)) :=
  ⟨⟨by norm_num, by norm_num⟩,
    localIDFromCellCoordinates_contract ⟨⟨3, 3, 3⟩, ⟨3, 3, 3⟩, 1⟩
      (fun n => if n = 13 then some 0 else none) 0 0 0 0 (by norm_num) (by norm_num)
      (by norm_num)⟩

end FsGrid
